import Mathlib

/-
  Shallow embedding of the inventory-and-accounting engine of the
  clients-ims-demo-stock-prizechange repository.

  Sources embedded:
  - src/server/storage.ts   (DatabaseStorage: createOrder, createReturn,
    createStockMovement, getStockStats, useDiscountCode, ...)
  - src/server/routes.ts    (POST /api/products handler: purchase AccountEntry)
  - src/client/src/components/create-return-dialog.tsx (calculateTotals)

  Database tables are modelled as Lean lists of rows; drizzle `select ... where`
  becomes `List.find?` (first match, as the code always takes `result[0]`),
  `update ... where` becomes a `List.map` that rewrites every matching row,
  `delete ... where` becomes a `List.filter`, and `insert` an append.
  JS numbers holding money are modelled as rationals (`ℚ`); `toFixed(2)`
  becomes rounding to two decimals.  Stock quantities are modelled as `Int`
  because the code writes intermediate negative values before clamping.
-/

namespace IMS

/-- Rounding a rational to two decimal places: the model of JS `x.toFixed(2)`
on the exact values that arise here. -/
def round2 (q : ℚ) : ℚ := (round (q * 100) : ℚ) / 100

/-- A row of the `products` table (the fields the engine reads or writes). -/
structure Product where
  id : String
  productName : String
  sku : String
  category : String
  price : ℚ
  stockQuantity : Int
  deriving Repr, DecidableEq

/-- A row of the `stock_stats` table. -/
structure StockStatsRow where
  productId : String
  productName : String
  sku : String
  category : String
  available : Int
  sold : Int
  returned : Int
  purchased : Int
  deriving Repr, DecidableEq

/-- A row of the `stock_movements` table (ids and timestamps are not part of
the model; rows are append-only). -/
structure StockMovementRow where
  productId : String
  productName : String
  sku : String
  type : String
  quantity : Int
  reason : String
  notes : String
  deriving Repr, DecidableEq

/-- A row of the `discount_codes` table. -/
structure DiscountCode where
  id : String
  code : String
  customerEmail : String
  amount : ℚ
  deriving Repr, DecidableEq

/-- The database state touched by the inventory engine. -/
structure State where
  products : List Product
  stats : List StockStatsRow
  movements : List StockMovementRow
  discountCodes : List DiscountCode
  deriving Repr, DecidableEq

/-- storage.ts `getProduct`: `select from products where id = ...`, first row. -/
def getProduct (s : State) (id : String) : Option Product :=
  s.products.find? (fun p => p.id == id)

/-- The stock-quantity part of storage.ts `updateProduct` as used by the
engine: every call passes the freshly fetched product with only
`stockQuantity` changed, so the row rewrite amounts to setting that field. -/
def updateProductStock (s : State) (id : String) (qty : Int) : State :=
  { s with products :=
      s.products.map (fun p => if p.id == id then { p with stockQuantity := qty } else p) }

/-- storage.ts `getStockStatsByProduct`: first row with the given productId. -/
def getStockStatsByProduct (s : State) (productId : String) : Option StockStatsRow :=
  s.stats.find? (fun r => r.productId == productId)

/-- storage.ts `updateStockStats`: `update stock_stats set ... where productId = ...`
rewrites every matching row with the supplied field merge `f`. -/
def updateStatsWith (s : State) (productId : String) (f : StockStatsRow → StockStatsRow) :
    State :=
  { s with stats := s.stats.map (fun r => if r.productId == productId then f r else r) }

/-- Input to storage.ts `createStockMovement` (an `InsertStockMovement`). -/
structure MovementInput where
  productId : String
  productName : String
  sku : String
  type : String
  quantity : Int
  reason : String
  notes : String
  deriving Repr, DecidableEq

/-- The new-quantity computation inside storage.ts `createStockMovement`
(lines 316-323): `in` adds, `out` subtracts, `adjustment` is an absolute
target, any other type leaves the quantity unchanged. -/
def movementNewQty (stock : Int) (m : MovementInput) : Int :=
  if m.type == "in" then stock + m.quantity
  else if m.type == "out" then stock - m.quantity
  else if m.type == "adjustment" then m.quantity
  else stock

/-- The ledger row inserted by storage.ts `createStockMovement`: the supplied
type, quantity and reason, verbatim. -/
def movementRow (m : MovementInput) : StockMovementRow :=
  ⟨m.productId, m.productName, m.sku, m.type, m.quantity, m.reason, m.notes⟩

/-- The stats update at the end of storage.ts `createStockMovement`
(lines 331-346): increment `purchased` when the reason is `purchase`,
otherwise only refresh `available`. -/
def applyMovementStats (s : State) (m : MovementInput) (finalQuantity : Int) : State :=
  match getStockStatsByProduct s m.productId with
  | none => s
  | some stats =>
    if m.reason == "purchase" then
      updateStatsWith s m.productId
        (fun r => { r with available := finalQuantity,
                           purchased := stats.purchased + m.quantity })
    else
      updateStatsWith s m.productId (fun r => { r with available := finalQuantity })

/-- The product-and-stats effect of storage.ts `createStockMovement`
(lines 314-347): when the product exists, clamp the new quantity at zero,
write it to the product, then update the stats row. -/
def applyMovementProduct (s : State) (m : MovementInput) : State :=
  match getProduct s m.productId with
  | none => s
  | some product =>
    let finalQuantity : Int := max 0 (movementNewQty product.stockQuantity m)
    applyMovementStats (updateProductStock s m.productId finalQuantity) m finalQuantity

/-- storage.ts `createStockMovement` (lines 304-350): insert the ledger row,
then apply the product and stats effects.  Returns the inserted row together
with the successor state. -/
def createStockMovement (s : State) (m : MovementInput) : StockMovementRow × State :=
  (movementRow m,
   applyMovementProduct { s with movements := s.movements ++ [movementRow m] } m)

/-- Input to storage.ts `createOrder` for one order item (`InsertOrderItem`). -/
structure OrderItemInput where
  productId : String
  productName : String
  sku : String
  quantity : Int
  unitPrice : ℚ
  deriving Repr, DecidableEq

/-- The per-item body of the loop in storage.ts `createOrder` (lines 243-270):
when the product exists, write `stockQuantity - quantity` (not clamped) to the
product, call `createStockMovement` with an `out`/`sale` row, then bump the
stats row (`available := max 0 (stockQuantity - quantity)`, `sold += quantity`). -/
def createOrderItem (s : State) (orderNumber : String) (item : OrderItemInput) : State :=
  match getProduct s item.productId with
  | none => s
  | some product =>
    let newStockQuantity := product.stockQuantity - item.quantity
    let s1 := updateProductStock s item.productId newStockQuantity
    let s2 := (createStockMovement s1
      ⟨item.productId, item.productName, item.sku, "out", item.quantity, "sale",
        "Order " ++ orderNumber⟩).2
    match getStockStatsByProduct s2 item.productId with
    | none => s2
    | some stats =>
      updateStatsWith s2 item.productId
        (fun r => { r with available := max 0 newStockQuantity,
                           sold := stats.sold + item.quantity })

/-- storage.ts `createOrder` restricted to its stock effects: the items are
processed sequentially, left to right. -/
def createOrder (s : State) (orderNumber : String) (items : List OrderItemInput) : State :=
  items.foldl (fun acc item => createOrderItem acc orderNumber item) s

/-- Input to storage.ts `createReturn` for one return item (`InsertReturnItem`). -/
structure ReturnItemInput where
  productId : String
  productName : String
  sku : String
  quantity : Int
  deriving Repr, DecidableEq

/-- The per-item body of the loop in storage.ts `createReturn` (lines 413-450):
when the product exists, write `stockQuantity + quantity` to the product and
bump the stats row (`available := stockQuantity + quantity`,
`returned += quantity`); then — outside the existence check — call
`createStockMovement` with an `in`/`return` row. -/
def createReturnItem (s : State) (returnNumber : String) (item : ReturnItemInput) : State :=
  let s1 :=
    match getProduct s item.productId with
    | none => s
    | some product =>
      let s1 := updateProductStock s item.productId (product.stockQuantity + item.quantity)
      match getStockStatsByProduct s1 item.productId with
      | none => s1
      | some stats =>
        updateStatsWith s1 item.productId
          (fun r => { r with available := product.stockQuantity + item.quantity,
                             returned := stats.returned + item.quantity })
  (createStockMovement s1
    ⟨item.productId, item.productName, item.sku, "in", item.quantity, "return",
      "Return " ++ returnNumber⟩).2

/-- storage.ts `createReturn` restricted to its stock effects. -/
def createReturn (s : State) (returnNumber : String) (items : List ReturnItemInput) : State :=
  items.foldl (fun acc item => createReturnItem acc returnNumber item) s

/-- The stats row inserted by the bulk `getStockStats` when a product has no
row yet (storage.ts lines 583-593): zero counters, `available` equal to the
product's stock quantity. -/
def freshStatsRow (p : Product) : StockStatsRow :=
  ⟨p.id, p.productName, p.sku, p.category, p.stockQuantity, 0, 0, 0⟩

/-- One iteration of the loop in storage.ts `getStockStats` (lines 574-604):
when a stats row for the product exists, refresh `available` on every matching
row; otherwise insert a fresh row. -/
def ensureStats (rows : List StockStatsRow) (p : Product) : List StockStatsRow :=
  if rows.any (fun r => r.productId == p.id) then
    rows.map (fun r =>
      if r.productId == p.id then { r with available := p.stockQuantity } else r)
  else
    rows ++ [freshStatsRow p]

/-- storage.ts bulk `getStockStats` (lines 569-608): reconcile the stats table
against every product, then return all rows ordered by product name. -/
def getStockStats (s : State) : List StockStatsRow × State :=
  let rows := s.products.foldl ensureStats s.stats
  (rows.mergeSort (fun a b => a.productName ≤ b.productName),
   { s with stats := rows })

/-- storage.ts `getDiscountCode`: first row with the given code string. -/
def getDiscountCode (s : State) (code : String) : Option DiscountCode :=
  s.discountCodes.find? (fun d => d.code == code)

/-- Result record of storage.ts `useDiscountCode`. -/
structure UseDiscountResult where
  updated : Option DiscountCode
  wasDeleted : Bool
  wasFound : Bool
  error : Option String
  deriving Repr, DecidableEq

/-- storage.ts `useDiscountCode` (lines 515-561).  `amountUsed` is the
`parseFloat` of the caller's string: `none` models a non-numeric input (NaN).
Signals, in order: not found; invalid (NaN or ≤ 0) amount; amount exceeding
the balance; full redemption (remainder within the 0.01 epsilon) deleting the
row; partial redemption updating the balance to the remainder, `toFixed(2)`. -/
def useDiscountCode (s : State) (code : String) (amountUsed : Option ℚ) :
    UseDiscountResult × State :=
  match getDiscountCode s code with
  | none => (⟨none, false, false, none⟩, s)
  | some discountCode =>
    match amountUsed with
    | none =>
      (⟨none, false, true, some "Amount used must be a positive number"⟩, s)
    | some usedAmount =>
      if usedAmount ≤ 0 then
        (⟨none, false, true, some "Amount used must be a positive number"⟩, s)
      else if discountCode.amount < usedAmount then
        (⟨none, false, true, some "Amount used exceeds available credit"⟩, s)
      else
        let remainingAmount := discountCode.amount - usedAmount
        if remainingAmount ≤ 1 / 100 then
          (⟨none, true, true, none⟩,
           { s with discountCodes :=
               s.discountCodes.filter (fun d => d.id != discountCode.id) })
        else
          let newCodes := s.discountCodes.map (fun d =>
            if d.id == discountCode.id then { d with amount := round2 remainingAmount }
            else d)
          (⟨newCodes.find? (fun d => d.id == discountCode.id), false, true, none⟩,
           { s with discountCodes := newCodes })

/-- One row of the return dialog's `returnItems` state
(create-return-dialog.tsx).  `subtotal` is the stored string field, kept in
sync by `updateQuantity` as `(quantity * parseFloat(unitPrice)).toFixed(2)`;
`exchangeProductId` is the optional designated exchange product. -/
structure DialogReturnItem where
  productId : String
  quantity : Int
  unitPrice : ℚ
  subtotal : ℚ
  exchangeProductId : Option String
  deriving Repr, DecidableEq

/-- Output record of create-return-dialog.tsx `calculateTotals`. -/
structure ReturnTotals where
  total : ℚ
  refund : ℚ
  credit : ℚ
  exchangeValue : ℚ
  additionalPayment : ℚ
  deriving Repr, DecidableEq

/-- The exchange-value contribution of one item inside `calculateTotals`:
`exchangeProduct.price * quantity` when the item designates an exchange
product that exists in the product list, else nothing. -/
def itemExchangeValue (products : List Product) (item : DialogReturnItem) : ℚ :=
  match item.exchangeProductId with
  | none => 0
  | some epid =>
    match products.find? (fun p => p.id == epid) with
    | none => 0
    | some exchangeProduct => exchangeProduct.price * item.quantity

/-- create-return-dialog.tsx `calculateTotals` (lines 187-235): sum the
subtotals and exchange values of the items with positive quantity, then split
the difference into exactly one of refund / credit / additional payment. -/
def calculateTotals (products : List Product) (items : List DialogReturnItem) :
    ReturnTotals :=
  let itemsToReturn := items.filter (fun i => 0 < i.quantity)
  let totalReturnValue := (itemsToReturn.map (fun i => i.subtotal)).sum
  let totalExchangeValue := (itemsToReturn.map (itemExchangeValue products)).sum
  if 0 < totalExchangeValue then
    let difference := totalReturnValue - totalExchangeValue
    if 0 < difference then
      ⟨totalReturnValue, 0, difference, totalExchangeValue, 0⟩
    else if difference < 0 then
      ⟨totalReturnValue, 0, 0, totalExchangeValue, -difference⟩
    else
      ⟨totalReturnValue, 0, 0, totalExchangeValue, 0⟩
  else
    ⟨totalReturnValue, totalReturnValue, 0, totalExchangeValue, 0⟩

/-- The parsed body of POST /api/products as far as the accounting side cares:
`costPrice` is `none` when the field is absent or the empty string (the zod
schema maps `""` to `null`, and `null`/`undefined` are falsy in the handler's
`if (parsed.data.costPrice && ...)` guard; any other string parses truthy). -/
structure ProductInput where
  price : ℚ
  costPrice : Option ℚ
  stockQuantity : Int
  deriving Repr, DecidableEq

/-- A row of the `accounts` table as written by the POST /api/products
handler (the fields the claims mention). -/
structure AccountEntry where
  transactionType : String
  revenue : ℚ
  cost : ℚ
  profit : ℚ
  quantity : Int
  deriving Repr, DecidableEq

/-- The purchase-side accounting block of the POST /api/products handler
(routes.ts lines 149-200): when `costPrice` is present and the initial stock
quantity is positive, and the per-unit difference is nonzero, insert a
`purchase` AccountEntry with `cost = costPrice * quantity` and
`profit = (price - costPrice) * quantity`, both `toFixed(2)`; otherwise no
entry is written. -/
def purchaseAccountEntry (input : ProductInput) : Option AccountEntry :=
  match input.costPrice with
  | none => none
  | some costPrice =>
    if 0 < input.stockQuantity then
      let difference := input.price - costPrice
      let totalDifference := difference * input.stockQuantity
      if 0 < difference then
        some ⟨"purchase", 0, round2 (costPrice * input.stockQuantity),
              round2 totalDifference, input.stockQuantity⟩
      else if difference < 0 then
        some ⟨"purchase", 0, round2 (costPrice * input.stockQuantity),
              round2 totalDifference, input.stockQuantity⟩
      else none
    else none

/-- The stock-mutating operations of the engine, for sequencing claims. -/
inductive Op where
  | sale (orderNumber : String) (items : List OrderItemInput)
  | ret (returnNumber : String) (items : List ReturnItemInput)
  | move (m : MovementInput)
  deriving Repr

/-- Apply one operation to the state. -/
def applyOp (s : State) (o : Op) : State :=
  match o with
  | .sale n items => createOrder s n items
  | .ret n items => createReturn s n items
  | .move m => (createStockMovement s m).2

/-- Every product row has a non-negative stock quantity. -/
def NonnegStock (s : State) : Prop := ∀ p ∈ s.products, 0 ≤ p.stockQuantity

/-- A concrete product with ten units on hand. -/
def demoProduct : Product := ⟨"p1", "Widget", "SKU-1", "general", 5, 10⟩

/-- A concrete state holding `demoProduct` and its stats row. -/
def demoSaleState : State :=
  ⟨[demoProduct], [⟨"p1", "Widget", "SKU-1", "general", 10, 0, 0, 0⟩], [], []⟩

/-- A concrete order item selling three units of `demoProduct`. -/
def demoSaleItem : OrderItemInput := ⟨"p1", "Widget", "SKU-1", 3, 5⟩

/-- A concrete state with five units of `demoProduct` on hand. -/
def demoReturnState : State :=
  ⟨[{ demoProduct with stockQuantity := 5 }],
   [⟨"p1", "Widget", "SKU-1", "general", 5, 0, 0, 0⟩], [], []⟩

/-- A concrete return item bringing back three units of `demoProduct`. -/
def demoReturnItem : ReturnItemInput := ⟨"p1", "Widget", "SKU-1", 3⟩

/-- A concrete product list offering one exchange product priced 30. -/
def demoExProducts : List Product := [⟨"e1", "Exchange", "SKU-E", "general", 30, 4⟩]

/-- A concrete dialog selection: two units at 50 with an exchange designated. -/
def demoExItems : List DialogReturnItem := [⟨"p1", 2, 50, 100, some "e1"⟩]

/-- Stats updates do not touch the product table. -/
theorem updateStatsWith_products (s : State) (pid : String) (f : StockStatsRow → StockStatsRow) :
    (updateStatsWith s pid f).products = s.products := rfl

/-- The movement-stats step does not touch the product table. -/
theorem applyMovementStats_products (s : State) (m : MovementInput) (q : Int) :
    (applyMovementStats s m q).products = s.products := by
  unfold applyMovementStats
  cases getStockStatsByProduct s m.productId with
  | none => rfl
  | some stats =>
    by_cases hr : m.reason == "purchase" <;> simp [hr, updateStatsWith_products]

/-- States with the same product table answer `getProduct` identically. -/
theorem getProduct_congr {s t : State} (h : t.products = s.products) (pid : String) :
    getProduct t pid = getProduct s pid := by
  unfold getProduct; rw [h]

/-- Updating the stock of the product found under `pid` makes `getProduct pid`
return that product with the new stock value. -/
theorem getProduct_updateProductStock_self (s : State) (pid : String) (v : Int)
    (prod : Product) (h : getProduct s pid = some prod) :
    getProduct (updateProductStock s pid v) pid = some { prod with stockQuantity := v } := by
  unfold getProduct updateProductStock at *
  rw [List.find?_map]
  have hcomp :
      ((fun p : Product => p.id == pid) ∘
        (fun p : Product => if p.id == pid then { p with stockQuantity := v } else p)) =
      fun p : Product => p.id == pid := by
    funext p
    by_cases hid : p.id = pid <;> simp [hid]
  rw [hcomp, h]
  have hpid : prod.id = pid := by simpa using List.find?_some h
  simp [hpid]

/-- The product table after the full movement effect: unchanged when the
product is missing, otherwise every row with the movement's productId gets the
clamped new quantity. -/
theorem applyMovementProduct_products (s : State) (m : MovementInput) :
    (applyMovementProduct s m).products =
      match getProduct s m.productId with
      | none => s.products
      | some product =>
          s.products.map (fun p =>
            if p.id == m.productId then
              { p with stockQuantity := max 0 (movementNewQty product.stockQuantity m) }
            else p) := by
  unfold applyMovementProduct
  cases h : getProduct s m.productId with
  | none => rfl
  | some product => rw [applyMovementStats_products]; rfl

/-- The product table after `createStockMovement`, in terms of the original
state (the ledger insert does not change the product table). -/
theorem createStockMovement_products (s : State) (m : MovementInput) :
    (createStockMovement s m).2.products =
      match getProduct s m.productId with
      | none => s.products
      | some product =>
          s.products.map (fun p =>
            if p.id == m.productId then
              { p with stockQuantity := max 0 (movementNewQty product.stockQuantity m) }
            else p) := by
  unfold createStockMovement
  exact applyMovementProduct_products _ m

/-- C1 (code bug, concrete evaluation): selling q = 3 units of a product with
stock s = 10 leaves stockQuantity = 4, because `createOrder` first writes
s − q = 7 and its `createStockMovement` call then applies the same `out`
movement again, writing max(0, 7 − 3) = 4; the claimed (and intended, per the
stats write in the very same function, which records available = 7)
max(0, s − q) = 7 does not hold.  `stats.sold` does rise by exactly q. -/
theorem createOrder_double_decrements_stock :
    (getProduct (createOrder demoSaleState "ORD-1" [demoSaleItem]) "p1").map
        Product.stockQuantity = some 4
    ∧ (getStockStatsByProduct (createOrder demoSaleState "ORD-1" [demoSaleItem])
        "p1").map StockStatsRow.sold = some 3
    ∧ (getStockStatsByProduct (createOrder demoSaleState "ORD-1" [demoSaleItem])
        "p1").map StockStatsRow.available = some 7
    ∧ (4 : Int) ≠ max 0 (10 - 3) := by
  decide

/-- C2 (code bug, concrete evaluation): returning q = 3 units against a
product with stock s = 5 leaves stockQuantity = 11, because `createReturn`
first writes s + q = 8 and its `createStockMovement` call then applies the
same `in` movement again, writing 8 + 3 = 11; the claimed s + q = 8 does not
hold.  `stats.returned` does rise by exactly q. -/
theorem createReturn_double_increments_stock :
    (getProduct (createReturn demoReturnState "RET-1" [demoReturnItem]) "p1").map
        Product.stockQuantity = some 11
    ∧ (getStockStatsByProduct (createReturn demoReturnState "RET-1" [demoReturnItem])
        "p1").map StockStatsRow.returned = some 3
    ∧ (11 : Int) ≠ 5 + 3 := by
  decide

/-- States with the same product table have the same stock sign property. -/
theorem nonnegStock_of_products_eq {s t : State} (h : t.products = s.products)
    (hs : NonnegStock s) : NonnegStock t := by
  intro p hp
  rw [h] at hp
  exact hs p hp

/-- A stock movement leaves every product non-negative, provided the products
it does not target were already non-negative (the targeted ones are clamped). -/
theorem nonnegStock_createStockMovement (s : State) (m : MovementInput)
    (h : ∀ p ∈ s.products, p.id ≠ m.productId → 0 ≤ p.stockQuantity) :
    NonnegStock (createStockMovement s m).2 := by
  intro p hp
  rw [createStockMovement_products] at hp
  cases hfind : getProduct s m.productId with
  | none =>
    rw [hfind] at hp
    simp only [] at hp
    have hnot := List.find?_eq_none.mp hfind p hp
    exact h p hp (by simpa using hnot)
  | some prod =>
    rw [hfind] at hp
    simp only [] at hp
    rcases List.mem_map.mp hp with ⟨q, hq, rfl⟩
    by_cases hid : q.id = m.productId
    · simp [hid]
    · simp only [hid, if_neg, beq_iff_eq]
      simp [hid]
      exact h q hq hid

/-- One order item leaves every product non-negative: the unclamped
intermediate write is followed by the clamped movement write. -/
theorem nonnegStock_createOrderItem (s : State) (n : String) (item : OrderItemInput)
    (h : NonnegStock s) : NonnegStock (createOrderItem s n item) := by
  unfold createOrderItem
  cases hfind : getProduct s item.productId with
  | none => simpa using h
  | some prod =>
    simp only []
    have h1 : ∀ p ∈ (updateProductStock s item.productId
        (prod.stockQuantity - item.quantity)).products,
        p.id ≠ item.productId → 0 ≤ p.stockQuantity := by
      intro p hp hne
      rcases List.mem_map.mp hp with ⟨q, hq, rfl⟩
      by_cases hid : q.id = item.productId
      · simp [hid] at hne
      · simp only [hid, beq_iff_eq, if_neg]
        simp [hid]
        exact h q hq
    have h2 := nonnegStock_createStockMovement _
      ⟨item.productId, item.productName, item.sku, "out", item.quantity, "sale",
        "Order " ++ n⟩ h1
    cases hstats : getStockStatsByProduct (createStockMovement _ _).2 item.productId with
    | none => exact h2
    | some stats => exact nonnegStock_of_products_eq (updateStatsWith_products _ _ _) h2

/-- One return item leaves every product non-negative. -/
theorem nonnegStock_createReturnItem (s : State) (n : String) (item : ReturnItemInput)
    (h : NonnegStock s) : NonnegStock (createReturnItem s n item) := by
  unfold createReturnItem
  apply nonnegStock_createStockMovement
  cases hfind : getProduct s item.productId with
  | none =>
    simp only []
    intro p hp _
    exact h p hp
  | some prod =>
    simp only []
    cases hstats : getStockStatsByProduct
        (updateProductStock s item.productId (prod.stockQuantity + item.quantity))
        item.productId with
    | none =>
      intro p hp hne
      rcases List.mem_map.mp hp with ⟨q, hq, rfl⟩
      by_cases hid : q.id = item.productId
      · simp [hid] at hne
      · simp [hid]
        exact h q hq
    | some stats =>
      intro p hp hne
      rw [updateStatsWith_products] at hp
      rcases List.mem_map.mp hp with ⟨q, hq, rfl⟩
      by_cases hid : q.id = item.productId
      · simp [hid] at hne
      · simp [hid]
        exact h q hq

/-- A whole order preserves non-negative stock. -/
theorem nonnegStock_createOrder (items : List OrderItemInput) (s : State) (n : String)
    (h : NonnegStock s) : NonnegStock (createOrder s n items) := by
  induction items generalizing s with
  | nil => exact h
  | cons item rest ih => exact ih _ (nonnegStock_createOrderItem s n item h)

/-- A whole return preserves non-negative stock. -/
theorem nonnegStock_createReturn (items : List ReturnItemInput) (s : State) (n : String)
    (h : NonnegStock s) : NonnegStock (createReturn s n items) := by
  induction items generalizing s with
  | nil => exact h
  | cons item rest ih => exact ih _ (nonnegStock_createReturnItem s n item h)

/-- Every single engine operation preserves non-negative stock. -/
theorem nonnegStock_applyOp (s : State) (o : Op) (h : NonnegStock s) :
    NonnegStock (applyOp s o) := by
  cases o with
  | sale n items => exact nonnegStock_createOrder items s n h
  | ret n items => exact nonnegStock_createReturn items s n h
  | move m => exact nonnegStock_createStockMovement s m (fun p hp _ => h p hp)

/-- Folding any operation list preserves non-negative stock. -/
theorem nonnegStock_foldl (ops : List Op) (s : State) (h : NonnegStock s) :
    NonnegStock (ops.foldl applyOp s) := by
  induction ops generalizing s with
  | nil => exact h
  | cons o rest ih => exact ih _ (nonnegStock_applyOp s o h)

/-- C3: starting from any state whose products all have non-negative stock,
after every completed prefix of any finite sequence of sale (createOrder),
return (createReturn) and manual-movement (createStockMovement) operations,
every product's stockQuantity is still ≥ 0 — negative results are clamped to
zero inside the movement step, never rejected. -/
theorem stock_nonneg_after_ops (s : State) (h : NonnegStock s) (ops : List Op) (n : ℕ) :
    NonnegStock ((ops.take n).foldl applyOp s) :=
  nonnegStock_foldl (ops.take n) s h

/-- Witness for C3 at a concrete state and operation sequence. -/
theorem stock_nonneg_after_ops_witness :
    NonnegStock (([Op.sale "ORD-1" [demoSaleItem], Op.ret "RET-1" [demoReturnItem],
        Op.move ⟨"p1", "Widget", "SKU-1", "out", 9000, "correction", ""⟩].take 3).foldl
      applyOp demoSaleState) :=
  stock_nonneg_after_ops demoSaleState
    (by unfold NonnegStock; decide) _ 3

/-- Stats updates do not touch the movement ledger. -/
theorem updateStatsWith_movements (s : State) (pid : String) (f : StockStatsRow → StockStatsRow) :
    (updateStatsWith s pid f).movements = s.movements := rfl

/-- The movement-stats step does not touch the movement ledger. -/
theorem applyMovementStats_movements (s : State) (m : MovementInput) (q : Int) :
    (applyMovementStats s m q).movements = s.movements := by
  unfold applyMovementStats
  cases getStockStatsByProduct s m.productId with
  | none => rfl
  | some stats =>
    by_cases hr : m.reason == "purchase" <;> simp [hr, updateStatsWith_movements]

/-- The product-and-stats effect does not touch the movement ledger. -/
theorem applyMovementProduct_movements (s : State) (m : MovementInput) :
    (applyMovementProduct s m).movements = s.movements := by
  unfold applyMovementProduct
  cases getProduct s m.productId with
  | none => rfl
  | some product => rw [applyMovementStats_movements]; rfl

/-- `createStockMovement` appends exactly the returned row to the ledger. -/
theorem createStockMovement_movements (s : State) (m : MovementInput) :
    (createStockMovement s m).2.movements = s.movements ++ [(createStockMovement s m).1] := by
  unfold createStockMovement
  rw [applyMovementProduct_movements]

/-- C4: a `createStockMovement` call of type `adjustment` with quantity v on
an existing product sets that product's stockQuantity to max(0, v) regardless
of its prior value (absolute-target semantics), and the appended StockMovement
row records the supplied quantity v verbatim. -/
theorem adjustment_sets_absolute_target (s : State) (m : MovementInput) (prod : Product)
    (htype : m.type = "adjustment")
    (hfound : getProduct s m.productId = some prod) :
    (getProduct (createStockMovement s m).2 m.productId).map Product.stockQuantity
        = some (max 0 m.quantity)
    ∧ (createStockMovement s m).1.quantity = m.quantity
    ∧ (createStockMovement s m).2.movements
        = s.movements ++ [(createStockMovement s m).1] := by
  refine ⟨?_, rfl, createStockMovement_movements s m⟩
  unfold createStockMovement applyMovementProduct
  have hfound1 : getProduct { s with movements := s.movements ++ [movementRow m] }
      m.productId = some prod := hfound
  rw [hfound1]
  simp only []
  rw [getProduct_congr (applyMovementStats_products _ _ _)]
  rw [getProduct_updateProductStock_self _ _ _ _ hfound1]
  have hq : movementNewQty prod.stockQuantity m = m.quantity := by
    unfold movementNewQty
    rw [htype]
    rfl
  rw [hq]
  rfl

/-- Witness for C4 at a concrete state: an adjustment to −4 clamps to 0. -/
theorem adjustment_sets_absolute_target_witness :
    (getProduct (createStockMovement demoSaleState
        ⟨"p1", "Widget", "SKU-1", "adjustment", -4, "correction", ""⟩).2 "p1").map
      Product.stockQuantity = some (max 0 (-4 : Int)) :=
  (adjustment_sets_absolute_target demoSaleState
    ⟨"p1", "Widget", "SKU-1", "adjustment", -4, "correction", ""⟩
    demoProduct rfl (by decide)).1

/-- Mapping a row rewrite that does not disturb a predicate commutes with
first-match lookup. -/
theorem find?_map_pred {α : Type} (l : List α) (f : α → α) (p : α → Bool)
    (h : ∀ x, p (f x) = p x) : (l.map f).find? p = (l.find? p).map f := by
  rw [List.find?_map]
  have hpf : (p ∘ f) = p := funext h
  rw [hpf]

/-- C5: redeeming an existing discount code with balance b for an amount a
with 0 < a ≤ b either — when b − a ≤ 0.01 — deletes the code's row (result
signals full redemption: wasDeleted, no updated row, every row with that id
gone, all other rows kept) or — otherwise — keeps the store the same size and
updates the code's balance to b − a rounded to two decimals (result signals
partial redemption carrying the new balance). -/
theorem useDiscountCode_redeem_spec (s : State) (c : String) (dc : DiscountCode) (a : ℚ)
    (hfound : getDiscountCode s c = some dc) (hpos : 0 < a) (hle : a ≤ dc.amount) :
    if dc.amount - a ≤ 1 / 100 then
      (useDiscountCode s c (some a)).1.wasDeleted = true
      ∧ (useDiscountCode s c (some a)).1.wasFound = true
      ∧ (useDiscountCode s c (some a)).1.updated = none
      ∧ (∀ d ∈ (useDiscountCode s c (some a)).2.discountCodes, d.id ≠ dc.id)
      ∧ (∀ d ∈ s.discountCodes, d.id ≠ dc.id →
          d ∈ (useDiscountCode s c (some a)).2.discountCodes)
    else
      (useDiscountCode s c (some a)).1.wasDeleted = false
      ∧ (useDiscountCode s c (some a)).1.wasFound = true
      ∧ (∃ row, (useDiscountCode s c (some a)).1.updated = some row
          ∧ row.amount = round2 (dc.amount - a))
      ∧ getDiscountCode (useDiscountCode s c (some a)).2 c
          = some { dc with amount := round2 (dc.amount - a) }
      ∧ (useDiscountCode s c (some a)).2.discountCodes.length
          = s.discountCodes.length := by
  unfold useDiscountCode
  rw [hfound]
  simp only []
  rw [if_neg (not_le.mpr hpos), if_neg (not_lt.mpr hle)]
  by_cases hrem : dc.amount - a ≤ 1 / 100
  · rw [if_pos hrem, if_pos hrem]
    refine ⟨rfl, rfl, rfl, ?_, ?_⟩
    · intro d hd
      have hne := (List.mem_filter.mp hd).2
      simpa using hne
    · intro d hd hne
      exact List.mem_filter.mpr ⟨hd, by simpa using hne⟩
  · rw [if_neg hrem, if_neg hrem]
    have hid : ∀ x : DiscountCode,
        ((fun d => d.id == dc.id)
          ((fun d => if d.id == dc.id then { d with amount := round2 (dc.amount - a) }
            else d) x))
        = (fun d : DiscountCode => d.id == dc.id) x := by
      intro x
      by_cases hx : x.id = dc.id <;> simp [hx]
    have hcode : ∀ x : DiscountCode,
        ((fun d => d.code == c)
          ((fun d => if d.id == dc.id then { d with amount := round2 (dc.amount - a) }
            else d) x))
        = (fun d : DiscountCode => d.code == c) x := by
      intro x
      by_cases hx : x.id = dc.id <;> simp [hx]
    refine ⟨rfl, rfl, ?_, ?_, by simp⟩
    · rw [find?_map_pred _ _ _ hid]
      have hsome : (s.discountCodes.find? (fun d => d.id == dc.id)).isSome := by
        rw [List.find?_isSome]
        exact ⟨dc, List.mem_of_find?_eq_some hfound, by simp⟩
      rcases Option.isSome_iff_exists.mp hsome with ⟨d0, hd0⟩
      have hd0id : d0.id = dc.id := by simpa using List.find?_some hd0
      rw [hd0]
      exact ⟨_, rfl, by simp [hd0id]⟩
    · unfold getDiscountCode
      simp only []
      rw [find?_map_pred _ _ _ hcode]
      have hfound' : s.discountCodes.find? (fun d => d.code == c) = some dc := hfound
      rw [hfound']
      simp

/-- Witness for C5 at a concrete store: redeeming 20 of a 50 balance leaves
the code with balance 30. -/
theorem useDiscountCode_redeem_spec_witness :
    getDiscountCode (useDiscountCode
        (State.mk [] [] [] [⟨"d1", "CODE-1", "c@shop.test", 50⟩]) "CODE-1" (some 20)).2
      "CODE-1" = some ⟨"d1", "CODE-1", "c@shop.test", round2 (50 - 20)⟩ := by
  have h := useDiscountCode_redeem_spec
    (State.mk [] [] [] [⟨"d1", "CODE-1", "c@shop.test", 50⟩]) "CODE-1"
    ⟨"d1", "CODE-1", "c@shop.test", 50⟩ 20 (by decide) (by norm_num) (by norm_num)
  rw [if_neg (by norm_num)] at h
  exact h.2.2.2.1

/-- C6: whenever `useDiscountCode` signals an error — code not found, amount
non-numeric (NaN) or non-positive, or amount exceeding the balance — the
whole store, in particular the discount-code table, is returned unchanged. -/
theorem useDiscountCode_error_leaves_store_unchanged (s : State) (c : String)
    (amt : Option ℚ) :
    (getDiscountCode s c = none →
      (useDiscountCode s c amt).2 = s ∧ (useDiscountCode s c amt).1.wasFound = false)
    ∧ (∀ dc, getDiscountCode s c = some dc →
        (amt = none ∨ ∃ a, amt = some a ∧ a ≤ 0) →
        (useDiscountCode s c amt).2 = s
          ∧ (useDiscountCode s c amt).1.error.isSome = true)
    ∧ (∀ dc a, getDiscountCode s c = some dc → amt = some a → dc.amount < a →
        (useDiscountCode s c amt).2 = s
          ∧ (useDiscountCode s c amt).1.error.isSome = true) := by
  refine ⟨?_, ?_, ?_⟩
  · intro hnone
    unfold useDiscountCode
    rw [hnone]
    exact ⟨rfl, rfl⟩
  · intro dc hdc hbad
    unfold useDiscountCode
    rw [hdc]
    rcases hbad with hnan | ⟨a, ha, hle⟩
    · rw [hnan]
      exact ⟨rfl, rfl⟩
    · rw [ha]
      simp only []
      rw [if_pos hle]
      exact ⟨rfl, rfl⟩
  · intro dc a hdc ha hgt
    unfold useDiscountCode
    rw [hdc, ha]
    simp only []
    by_cases hle : a ≤ 0
    · rw [if_pos hle]
      exact ⟨rfl, rfl⟩
    · rw [if_neg hle, if_pos hgt]
      exact ⟨rfl, rfl⟩

/-- Witness for C6: all three error paths at a concrete one-code store. -/
theorem useDiscountCode_error_leaves_store_unchanged_witness :
    (useDiscountCode (State.mk [] [] [] [⟨"d1", "CODE-1", "c@shop.test", 50⟩])
        "MISSING" (some 5)).2
      = State.mk [] [] [] [⟨"d1", "CODE-1", "c@shop.test", 50⟩]
    ∧ (useDiscountCode (State.mk [] [] [] [⟨"d1", "CODE-1", "c@shop.test", 50⟩])
        "CODE-1" none).2
      = State.mk [] [] [] [⟨"d1", "CODE-1", "c@shop.test", 50⟩]
    ∧ (useDiscountCode (State.mk [] [] [] [⟨"d1", "CODE-1", "c@shop.test", 50⟩])
        "CODE-1" (some 60)).2
      = State.mk [] [] [] [⟨"d1", "CODE-1", "c@shop.test", 50⟩] :=
  ⟨((useDiscountCode_error_leaves_store_unchanged _ "MISSING" (some 5)).1 (by decide)).1,
   ((useDiscountCode_error_leaves_store_unchanged _ "CODE-1" none).2.1
      ⟨"d1", "CODE-1", "c@shop.test", 50⟩ (by decide) (Or.inl rfl)).1,
   ((useDiscountCode_error_leaves_store_unchanged _ "CODE-1" (some 60)).2.2
      ⟨"d1", "CODE-1", "c@shop.test", 50⟩ 60 (by decide) rfl (by norm_num)).1⟩

/-- The row rewrite inside `ensureStats` keeps each row's productId. -/
theorem ensureStats_map_productId (p : Product) (r : StockStatsRow) :
    (if r.productId == p.id then { r with available := p.stockQuantity } else r).productId
      = r.productId := by
  by_cases h : r.productId = p.id <;> simp [h]

/-- After `ensureStats rows p`, every row carrying p's id has p's stock as its
available quantity. -/
theorem ensureStats_availOK_self (rows : List StockStatsRow) (p : Product) :
    ∀ r ∈ ensureStats rows p, r.productId = p.id → r.available = p.stockQuantity := by
  intro r hr hrid
  unfold ensureStats at hr
  split at hr
  · rcases List.mem_map.mp hr with ⟨r0, hr0, rfl⟩
    by_cases h0 : r0.productId = p.id
    · simp [h0]
    · rw [if_neg (by simpa using h0)] at hrid ⊢
      exact absurd hrid h0
  · rename_i hany
    rcases List.mem_append.mp hr with h | h
    · exact absurd (List.any_eq_true.mpr ⟨r, h, by simp [hrid]⟩) hany
    · rcases List.mem_singleton.mp h with rfl
      rfl

/-- `ensureStats` for a different product does not disturb the available
quantities recorded for pid. -/
theorem ensureStats_availOK_other (rows : List StockStatsRow) (p : Product) (pid : String)
    (v : Int) (hne : pid ≠ p.id)
    (h : ∀ r ∈ rows, r.productId = pid → r.available = v) :
    ∀ r ∈ ensureStats rows p, r.productId = pid → r.available = v := by
  intro r hr hrid
  unfold ensureStats at hr
  split at hr
  · rcases List.mem_map.mp hr with ⟨r0, hr0, rfl⟩
    by_cases h0 : r0.productId = p.id
    · rw [if_pos (by simpa using h0)] at hrid
      simp only [] at hrid
      exact absurd (hrid ▸ h0) hne
    · rw [if_neg (by simpa using h0)] at hrid ⊢
      exact h r0 hr0 hrid
  · rcases List.mem_append.mp hr with hmem | hmem
    · exact h r hmem hrid
    · rcases List.mem_singleton.mp hmem with rfl
      exact absurd hrid.symm hne

/-- `ensureStats rows p` always contains a row for p. -/
theorem ensureStats_hasRow_self (rows : List StockStatsRow) (p : Product) :
    ∃ r ∈ ensureStats rows p, r.productId = p.id := by
  unfold ensureStats
  split
  · rename_i hany
    rcases List.any_eq_true.mp hany with ⟨r0, hr0, hid⟩
    refine ⟨_, List.mem_map_of_mem _ hr0, ?_⟩
    rw [ensureStats_map_productId]
    simpa using hid
  · exact ⟨freshStatsRow p, List.mem_append_right _ (List.mem_singleton.mpr rfl), rfl⟩

/-- `ensureStats` keeps a row for any pid it already had a row for. -/
theorem ensureStats_hasRow_mono (rows : List StockStatsRow) (p : Product) (pid : String)
    (h : ∃ r ∈ rows, r.productId = pid) :
    ∃ r ∈ ensureStats rows p, r.productId = pid := by
  rcases h with ⟨r0, hr0, hid⟩
  unfold ensureStats
  split
  · refine ⟨_, List.mem_map_of_mem _ hr0, ?_⟩
    rw [ensureStats_map_productId]
    exact hid
  · exact ⟨r0, List.mem_append_left _ hr0, hid⟩

/-- A row for a product other than p survives `ensureStats rows p` unchanged. -/
theorem ensureStats_preserves_other_rows (rows : List StockStatsRow) (p : Product)
    (r : StockStatsRow) (hr : r ∈ rows) (hne : r.productId ≠ p.id) :
    r ∈ ensureStats rows p := by
  unfold ensureStats
  split
  · have : (if r.productId == p.id then { r with available := p.stockQuantity } else r) = r :=
      if_neg (by simpa using hne)
    exact this ▸ List.mem_map_of_mem _ hr
  · exact List.mem_append_left _ hr

/-- `ensureStats rows p` introduces no row for a pid other than p's. -/
theorem ensureStats_noRow_other (rows : List StockStatsRow) (p : Product) (pid : String)
    (hne : pid ≠ p.id) (h : ∀ r ∈ rows, r.productId ≠ pid) :
    ∀ r ∈ ensureStats rows p, r.productId ≠ pid := by
  intro r hr
  unfold ensureStats at hr
  split at hr
  · rcases List.mem_map.mp hr with ⟨r0, hr0, rfl⟩
    rw [ensureStats_map_productId]
    exact h r0 hr0
  · rcases List.mem_append.mp hr with hmem | hmem
    · exact h r hmem
    · rcases List.mem_singleton.mp hmem with rfl
      exact fun hcontra => hne hcontra.symm

/-- Folding `ensureStats` over products that all differ from pid keeps the
available quantities recorded for pid. -/
theorem foldl_ensureStats_availOK_other (ps : List Product) (rows : List StockStatsRow)
    (pid : String) (v : Int) (hne : ∀ p ∈ ps, p.id ≠ pid)
    (h : ∀ r ∈ rows, r.productId = pid → r.available = v) :
    ∀ r ∈ ps.foldl ensureStats rows, r.productId = pid → r.available = v := by
  induction ps generalizing rows with
  | nil => exact h
  | cons p rest ih =>
    exact ih _ (fun p' hp' => hne p' (List.mem_cons_of_mem _ hp'))
      (ensureStats_availOK_other rows p pid v
        (fun hcontra => hne p (List.mem_cons_self _ _) hcontra.symm) h)

/-- Folding `ensureStats` keeps a row for any pid the accumulator had one for. -/
theorem foldl_ensureStats_hasRow_mono (ps : List Product) (rows : List StockStatsRow)
    (pid : String) (h : ∃ r ∈ rows, r.productId = pid) :
    ∃ r ∈ ps.foldl ensureStats rows, r.productId = pid := by
  induction ps generalizing rows with
  | nil => exact h
  | cons p rest ih => exact ih _ (ensureStats_hasRow_mono rows p pid h)

/-- A row whose pid differs from every folded product's id survives the whole
fold unchanged. -/
theorem foldl_ensureStats_preserves_other_rows (ps : List Product)
    (rows : List StockStatsRow) (r : StockStatsRow) (hr : r ∈ rows)
    (hne : ∀ p ∈ ps, p.id ≠ r.productId) :
    r ∈ ps.foldl ensureStats rows := by
  induction ps generalizing rows with
  | nil => exact hr
  | cons p rest ih =>
    exact ih _
      (ensureStats_preserves_other_rows rows p r hr
        (fun hcontra => hne p (List.mem_cons_self _ _) hcontra.symm))
      (fun p' hp' => hne p' (List.mem_cons_of_mem _ hp'))

/-- Folding over products that all differ from pid introduces no row for pid. -/
theorem foldl_ensureStats_noRow_other (ps : List Product) (rows : List StockStatsRow)
    (pid : String) (hne : ∀ p ∈ ps, p.id ≠ pid)
    (h : ∀ r ∈ rows, r.productId ≠ pid) :
    ∀ r ∈ ps.foldl ensureStats rows, r.productId ≠ pid := by
  induction ps generalizing rows with
  | nil => exact h
  | cons p rest ih =>
    exact ih _ (fun p' hp' => hne p' (List.mem_cons_of_mem _ hp'))
      (ensureStats_noRow_other rows p pid
        (fun hcontra => hne p (List.mem_cons_self _ _) hcontra.symm) h)

/-- After the reconciliation fold, every listed product has a stats row. -/
theorem foldl_ensureStats_hasRow (ps : List Product) (rows : List StockStatsRow) :
    ∀ p ∈ ps, ∃ r ∈ ps.foldl ensureStats rows, r.productId = p.id := by
  induction ps generalizing rows with
  | nil => intro p hp; cases hp
  | cons p0 rest ih =>
    intro p hp
    rcases List.mem_cons.mp hp with rfl | hmem
    · exact foldl_ensureStats_hasRow_mono rest _ p.id (ensureStats_hasRow_self rows p)
    · exact ih _ p hmem

/-- After the reconciliation fold, with product ids unique, every row carrying
a listed product's id records that product's stock as available. -/
theorem foldl_ensureStats_availOK (ps : List Product) (rows : List StockStatsRow)
    (hids : (ps.map Product.id).Nodup) :
    ∀ p ∈ ps, ∀ r ∈ ps.foldl ensureStats rows, r.productId = p.id →
      r.available = p.stockQuantity := by
  induction ps generalizing rows with
  | nil => intro p hp; cases hp
  | cons p0 rest ih =>
    rw [List.map_cons, List.nodup_cons] at hids
    intro p hp
    rcases List.mem_cons.mp hp with rfl | hmem
    · exact foldl_ensureStats_availOK_other rest _ p.id p.stockQuantity
        (fun p' hp' hcontra =>
          hids.1 (hcontra ▸ List.mem_map_of_mem Product.id hp'))
        (ensureStats_availOK_self rows p)
    · exact ih _ hids.2 p hmem

/-- After the reconciliation fold, with product ids unique, a listed product
having no prior stats row gets exactly the fresh zero-counter row. -/
theorem foldl_ensureStats_fresh (ps : List Product) (rows : List StockStatsRow)
    (hids : (ps.map Product.id).Nodup) :
    ∀ p ∈ ps, (∀ r ∈ rows, r.productId ≠ p.id) →
      freshStatsRow p ∈ ps.foldl ensureStats rows := by
  induction ps generalizing rows with
  | nil => intro p hp; cases hp
  | cons p0 rest ih =>
    rw [List.map_cons, List.nodup_cons] at hids
    intro p hp hnorow
    rcases List.mem_cons.mp hp with rfl | hmem
    · have hnot : (rows.any (fun r => r.productId == p.id)) ≠ true := by
        intro hany
        rcases List.any_eq_true.mp hany with ⟨r0, hr0, hid⟩
        exact hnorow r0 hr0 (by simpa using hid)
      have hstep : ensureStats rows p = rows ++ [freshStatsRow p] := by
        unfold ensureStats
        exact if_neg hnot
      refine foldl_ensureStats_preserves_other_rows rest _ _ ?_ ?_
      · rw [hstep]
        exact List.mem_append_right _ (List.mem_singleton.mpr rfl)
      · intro p' hp' hcontra
        have hc : p'.id = p.id := hcontra
        exact hids.1 (hc ▸ List.mem_map_of_mem Product.id hp')
    · have hpid : p.id ≠ p0.id := by
        intro hcontra
        exact hids.1 (hcontra ▸ List.mem_map_of_mem Product.id hmem)
      exact ih _ hids.2 p hmem
        (ensureStats_noRow_other rows p0 p.id hpid hnorow)

/-- C7: after a bulk `getStockStats` call on a state with unique product ids,
the product table is untouched; every product has a stats row in the returned
list; a product that had no stats row gets one created with sold = returned =
purchased = 0 and available equal to its stockQuantity; the available field of
every returned row carrying a product's id equals that product's live
stockQuantity; and the returned list is ordered by product name. -/
theorem getStockStats_reconciles (s : State)
    (hids : (s.products.map Product.id).Nodup) :
    (getStockStats s).2.products = s.products
    ∧ (∀ p ∈ s.products, ∃ r ∈ (getStockStats s).1, r.productId = p.id)
    ∧ (∀ p ∈ s.products, (∀ r0 ∈ s.stats, r0.productId ≠ p.id) →
        ∃ r ∈ (getStockStats s).1, r.productId = p.id ∧ r.sold = 0 ∧ r.returned = 0
          ∧ r.purchased = 0 ∧ r.available = p.stockQuantity)
    ∧ (∀ r ∈ (getStockStats s).1, ∀ p ∈ s.products, r.productId = p.id →
        r.available = p.stockQuantity)
    ∧ (getStockStats s).1.Pairwise (fun a b => a.productName ≤ b.productName) := by
  refine ⟨rfl, ?_, ?_, ?_, ?_⟩
  · intro p hp
    rcases foldl_ensureStats_hasRow s.products s.stats p hp with ⟨r, hr, hid⟩
    exact ⟨r, List.mem_mergeSort.mpr hr, hid⟩
  · intro p hp hnorow
    have hmem := foldl_ensureStats_fresh s.products s.stats hids p hp
      (fun r0 hr0 => hnorow r0 hr0)
    exact ⟨freshStatsRow p, List.mem_mergeSort.mpr hmem, rfl, rfl, rfl, rfl, rfl⟩
  · intro r hr p hp hid
    exact foldl_ensureStats_availOK s.products s.stats hids p hp r
      (List.mem_mergeSort.mp hr) hid
  · have htrans : ∀ a b c : StockStatsRow,
        (decide (a.productName ≤ b.productName)) = true →
        (decide (b.productName ≤ c.productName)) = true →
        (decide (a.productName ≤ c.productName)) = true := by
      intro a b c hab hbc
      exact decide_eq_true (le_trans (of_decide_eq_true hab) (of_decide_eq_true hbc))
    have htotal : ∀ a b : StockStatsRow,
        ((decide (a.productName ≤ b.productName))
          || (decide (b.productName ≤ a.productName))) = true := by
      intro a b
      rcases le_total a.productName b.productName with h | h <;> simp [h]
    have hsorted := List.sorted_mergeSort htrans htotal
      (s.products.foldl ensureStats s.stats)
    exact List.Pairwise.imp (fun h => of_decide_eq_true h) hsorted

/-- Witness for C7 at a concrete two-product state with one missing stats
row: the missing row is created with zero counters and live availability. -/
theorem getStockStats_reconciles_witness :
    ∃ r ∈ (getStockStats (State.mk
        [⟨"b", "Bravo", "S2", "c", 1, 7⟩, ⟨"a", "Alpha", "S1", "c", 1, 3⟩]
        [⟨"b", "Bravo", "S2", "c", 99, 2, 1, 0⟩] [] [])).1,
      r.productId = "a" ∧ r.sold = 0 ∧ r.returned = 0 ∧ r.purchased = 0
        ∧ r.available = 3 :=
  (getStockStats_reconciles
    (State.mk [⟨"b", "Bravo", "S2", "c", 1, 7⟩, ⟨"a", "Alpha", "S1", "c", 1, 3⟩]
      [⟨"b", "Bravo", "S2", "c", 99, 2, 1, 0⟩] [] [])
    (by decide)).2.2.1 ⟨"a", "Alpha", "S1", "c", 1, 3⟩ (by decide) (by decide)

/-- Branch-free description of `calculateTotals`. -/
theorem calculateTotals_cases (products : List Product) (items : List DialogReturnItem) :
    calculateTotals products items =
      (if 0 < ((items.filter (fun i => 0 < i.quantity)).map (itemExchangeValue products)).sum
       then
        (if 0 < ((items.filter (fun i => 0 < i.quantity)).map (fun i => i.subtotal)).sum
              - ((items.filter (fun i => 0 < i.quantity)).map (itemExchangeValue products)).sum
         then
          ⟨((items.filter (fun i => 0 < i.quantity)).map (fun i => i.subtotal)).sum, 0,
           ((items.filter (fun i => 0 < i.quantity)).map (fun i => i.subtotal)).sum
             - ((items.filter (fun i => 0 < i.quantity)).map (itemExchangeValue products)).sum,
           ((items.filter (fun i => 0 < i.quantity)).map (itemExchangeValue products)).sum, 0⟩
         else if ((items.filter (fun i => 0 < i.quantity)).map (fun i => i.subtotal)).sum
              - ((items.filter (fun i => 0 < i.quantity)).map (itemExchangeValue products)).sum
              < 0
         then
          ⟨((items.filter (fun i => 0 < i.quantity)).map (fun i => i.subtotal)).sum, 0, 0,
           ((items.filter (fun i => 0 < i.quantity)).map (itemExchangeValue products)).sum,
           -(((items.filter (fun i => 0 < i.quantity)).map (fun i => i.subtotal)).sum
             - ((items.filter (fun i => 0 < i.quantity)).map (itemExchangeValue products)).sum)⟩
         else
          ⟨((items.filter (fun i => 0 < i.quantity)).map (fun i => i.subtotal)).sum, 0, 0,
           ((items.filter (fun i => 0 < i.quantity)).map (itemExchangeValue products)).sum, 0⟩)
       else
        ⟨((items.filter (fun i => 0 < i.quantity)).map (fun i => i.subtotal)).sum,
         ((items.filter (fun i => 0 < i.quantity)).map (fun i => i.subtotal)).sum, 0,
         ((items.filter (fun i => 0 < i.quantity)).map (itemExchangeValue products)).sum, 0⟩) :=
  rfl

/-- Each item's exchange-value contribution is non-negative when listed
prices are non-negative and the item's quantity is. -/
theorem itemExchangeValue_nonneg (products : List Product) (i : DialogReturnItem)
    (hprice : ∀ p ∈ products, 0 ≤ p.price) (hq : 0 ≤ i.quantity) :
    0 ≤ itemExchangeValue products i := by
  unfold itemExchangeValue
  split
  · exact le_refl (0 : ℚ)
  · split
    · exact le_refl (0 : ℚ)
    · rename_i hfind
      exact mul_nonneg (hprice _ (List.mem_of_find?_eq_some hfind))
        (Int.cast_nonneg.mpr hq)

/-- C8: with the dialog's stored subtotals equal to quantity × unitPrice and
all prices non-negative, `calculateTotals` computes returnValue R as the sum
of quantity × unitPrice over items with positive quantity, and exactly one of
the three outcomes is taken: E = 0 gives refund = R; E > 0 with R − E > 0
gives credit = R − E; R − E < 0 gives additionalPayment = E − R; E > 0 with
R = E gives all three zero; in every case at most one outcome is nonzero. -/
theorem calculateTotals_spec (products : List Product) (items : List DialogReturnItem)
    (hsub : ∀ i ∈ items, i.subtotal = (i.quantity : ℚ) * i.unitPrice)
    (hunit : ∀ i ∈ items, 0 ≤ i.unitPrice)
    (hprice : ∀ p ∈ products, 0 ≤ p.price) :
    (calculateTotals products items).total
        = ((items.filter (fun i => 0 < i.quantity)).map
            (fun i => (i.quantity : ℚ) * i.unitPrice)).sum
    ∧ ((calculateTotals products items).exchangeValue = 0 →
        (calculateTotals products items).refund = (calculateTotals products items).total
          ∧ (calculateTotals products items).credit = 0
          ∧ (calculateTotals products items).additionalPayment = 0)
    ∧ (0 < (calculateTotals products items).exchangeValue →
        0 < (calculateTotals products items).total
            - (calculateTotals products items).exchangeValue →
        (calculateTotals products items).credit
            = (calculateTotals products items).total
              - (calculateTotals products items).exchangeValue
          ∧ (calculateTotals products items).refund = 0
          ∧ (calculateTotals products items).additionalPayment = 0)
    ∧ ((calculateTotals products items).total
          - (calculateTotals products items).exchangeValue < 0 →
        (calculateTotals products items).additionalPayment
            = (calculateTotals products items).exchangeValue
              - (calculateTotals products items).total
          ∧ (calculateTotals products items).refund = 0
          ∧ (calculateTotals products items).credit = 0)
    ∧ (0 < (calculateTotals products items).exchangeValue →
        (calculateTotals products items).total
            = (calculateTotals products items).exchangeValue →
        (calculateTotals products items).refund = 0
          ∧ (calculateTotals products items).credit = 0
          ∧ (calculateTotals products items).additionalPayment = 0)
    ∧ (((calculateTotals products items).refund = 0
          ∧ (calculateTotals products items).credit = 0)
        ∨ ((calculateTotals products items).refund = 0
          ∧ (calculateTotals products items).additionalPayment = 0)
        ∨ ((calculateTotals products items).credit = 0
          ∧ (calculateTotals products items).additionalPayment = 0)) := by
  have hmap : (items.filter (fun i => 0 < i.quantity)).map (fun i => i.subtotal)
      = (items.filter (fun i => 0 < i.quantity)).map
          (fun i => (i.quantity : ℚ) * i.unitPrice) := by
    apply List.map_congr_left
    intro i hi
    exact hsub i (List.mem_filter.mp hi).1
  have hRnn : 0 ≤ ((items.filter (fun i => 0 < i.quantity)).map
      (fun i => i.subtotal)).sum := by
    apply List.sum_nonneg
    intro x hx
    rcases List.mem_map.mp hx with ⟨i, hi, rfl⟩
    have hmemi := (List.mem_filter.mp hi).1
    have hqi : 0 < i.quantity := of_decide_eq_true (List.mem_filter.mp hi).2
    rw [hsub i hmemi]
    exact mul_nonneg (by exact_mod_cast hqi.le) (hunit i hmemi)
  have hEnn : 0 ≤ ((items.filter (fun i => 0 < i.quantity)).map
      (itemExchangeValue products)).sum := by
    apply List.sum_nonneg
    intro x hx
    rcases List.mem_map.mp hx with ⟨i, hi, rfl⟩
    have hqi : 0 < i.quantity := of_decide_eq_true (List.mem_filter.mp hi).2
    exact itemExchangeValue_nonneg products i hprice hqi.le
  rw [calculateTotals_cases]
  split_ifs with hE hpos hneg
  · dsimp only
    refine ⟨congrArg List.sum hmap, fun h => absurd h (ne_of_gt hE),
      fun _ _ => ⟨rfl, rfl, rfl⟩, fun h => absurd h (not_lt.mpr hpos.le),
      fun _ h => absurd hpos ?_, Or.inr (Or.inl ⟨rfl, rfl⟩)⟩
    rw [h, sub_self]
    exact lt_irrefl 0
  · dsimp only
    refine ⟨congrArg List.sum hmap, fun h => absurd h (ne_of_gt hE),
      fun _ h => absurd h hpos, fun _ => ⟨neg_sub _ _, rfl, rfl⟩,
      fun _ h => absurd hneg ?_, Or.inl ⟨rfl, rfl⟩⟩
    rw [h, sub_self]
    exact lt_irrefl 0
  · dsimp only
    exact ⟨congrArg List.sum hmap, fun h => absurd h (ne_of_gt hE),
      fun _ h => absurd h hpos, fun h => absurd h hneg,
      fun _ _ => ⟨rfl, rfl, rfl⟩, Or.inl ⟨rfl, rfl⟩⟩
  · dsimp only
    refine ⟨congrArg List.sum hmap, fun _ => ⟨rfl, rfl, rfl⟩,
      fun h => absurd h hE, fun h => ?_, fun h => absurd h hE,
      Or.inr (Or.inr ⟨rfl, rfl⟩)⟩
    exfalso
    have hEzero : ((items.filter (fun i => 0 < i.quantity)).map
        (itemExchangeValue products)).sum = 0 := le_antisymm (not_lt.mp hE) hEnn
    rw [hEzero, sub_zero] at h
    exact absurd h (not_lt.mpr hRnn)

/-- Witness for C8 at a concrete exchange: R = 100, E = 60 gives credit 40. -/
theorem calculateTotals_spec_witness :
    (calculateTotals demoExProducts demoExItems).credit
      = (calculateTotals demoExProducts demoExItems).total
        - (calculateTotals demoExProducts demoExItems).exchangeValue := by
  have h := calculateTotals_spec demoExProducts demoExItems
    (by intro i hi; simp only [demoExItems, List.mem_singleton] at hi; subst hi; norm_num)
    (by intro i hi; simp only [demoExItems, List.mem_singleton] at hi; subst hi; norm_num)
    (by intro p hp; simp only [demoExProducts, List.mem_singleton] at hp; subst hp; norm_num)
  exact (h.2.2.1
    (by norm_num [calculateTotals, demoExProducts, demoExItems, itemExchangeValue])
    (by norm_num [calculateTotals, demoExProducts, demoExItems, itemExchangeValue])).1

/-- Rounding to two decimals is the identity on values that are an integer
number of hundredths. -/
theorem round2_of_int_mul (q : ℚ) (k : ℤ) (h : q * 100 = (k : ℚ)) : round2 q = q := by
  unfold round2
  rw [h, round_intCast]
  have hq : (k : ℚ) = q * 100 := h.symm
  rw [hq]
  ring

/-- C9 counterexample: creating a break-even product (price = costPrice = 50,
stockQuantity = 10, costPrice present) writes no AccountEntry at all, whereas
the claim demands an entry with profit 10 × (50 − 50). -/
theorem purchaseAccountEntry_breakeven_counterexample :
    purchaseAccountEntry ⟨50, some 50, 10⟩ = none
    ∧ ¬ ∃ e : AccountEntry, purchaseAccountEntry ⟨50, some 50, 10⟩ = some e
        ∧ e.transactionType = "purchase"
        ∧ e.profit = ((10 : Int) : ℚ) * ((50 : ℚ) - 50) := by
  have hnone : purchaseAccountEntry ⟨50, some 50, 10⟩ = none := by
    unfold purchaseAccountEntry
    norm_num
  refine ⟨hnone, ?_⟩
  rintro ⟨e, he, -, -⟩
  rw [hnone] at he
  exact Option.noConfusion he

/-- C9 (amended): creating a product with costPrice present, positive initial
stockQuantity and price ≠ costPrice — both prices being whole numbers of
cents, as the decimal(10,2) columns guarantee — writes a purchase AccountEntry
whose profit equals stockQuantity × (price − costPrice), positive exactly when
price exceeds costPrice and negative exactly when costPrice exceeds price;
with costPrice absent no AccountEntry is written.  (Amendment forced by the
counterexample: the break-even case price = costPrice writes no entry.) -/
theorem purchaseAccountEntry_spec (input : ProductInput) (cp : ℚ)
    (hcp : input.costPrice = some cp) (hqty : 0 < input.stockQuantity)
    (hne : input.price ≠ cp)
    (hc1 : ∃ n : ℤ, input.price * 100 = (n : ℚ))
    (hc2 : ∃ m : ℤ, cp * 100 = (m : ℚ)) :
    (∃ e, purchaseAccountEntry input = some e
      ∧ e.transactionType = "purchase"
      ∧ e.profit = (input.price - cp) * ((input.stockQuantity : Int) : ℚ)
      ∧ (cp < input.price → 0 < e.profit)
      ∧ (input.price < cp → e.profit < 0))
    ∧ (∀ inp : ProductInput, inp.costPrice = none → purchaseAccountEntry inp = none) := by
  obtain ⟨n, hn⟩ := hc1
  obtain ⟨m, hm⟩ := hc2
  have hqQ : (0 : ℚ) < ((input.stockQuantity : Int) : ℚ) := by exact_mod_cast hqty
  have hprofit : round2 ((input.price - cp) * ((input.stockQuantity : Int) : ℚ))
      = (input.price - cp) * ((input.stockQuantity : Int) : ℚ) := by
    apply round2_of_int_mul _ ((n - m) * input.stockQuantity)
    push_cast
    linear_combination ((input.stockQuantity : Int) : ℚ) * hn
      - ((input.stockQuantity : Int) : ℚ) * hm
  constructor
  · unfold purchaseAccountEntry
    rw [hcp]
    simp only []
    rw [if_pos hqty]
    rcases (sub_ne_zero.mpr hne).lt_or_lt with hd | hd
    · rw [if_neg (not_lt.mpr hd.le), if_pos hd]
      refine ⟨_, rfl, rfl, hprofit, ?_, ?_⟩
      · intro hlt
        rw [hprofit]
        exact mul_pos (sub_pos.mpr hlt) hqQ
      · intro hlt
        rw [hprofit]
        exact mul_neg_of_neg_of_pos (sub_neg.mpr hlt) hqQ
    · rw [if_pos hd]
      refine ⟨_, rfl, rfl, hprofit, ?_, ?_⟩
      · intro hlt
        rw [hprofit]
        exact mul_pos (sub_pos.mpr hlt) hqQ
      · intro hlt
        rw [hprofit]
        exact mul_neg_of_neg_of_pos (sub_neg.mpr hlt) hqQ
  · intro inp hnone
    unfold purchaseAccountEntry
    rw [hnone]

/-- Witness for the amended C9 at price 50, costPrice 30, stock 10: a
purchase entry with profit (50 − 30) × 10 = 200 is written. -/
theorem purchaseAccountEntry_spec_witness :
    ∃ e, purchaseAccountEntry ⟨50, some 30, 10⟩ = some e
      ∧ e.transactionType = "purchase"
      ∧ e.profit = ((50 : ℚ) - 30) * (((10 : Int) : Int) : ℚ)
      ∧ ((30 : ℚ) < 50 → 0 < e.profit)
      ∧ ((50 : ℚ) < 30 → e.profit < 0) :=
  (purchaseAccountEntry_spec ⟨50, some 30, 10⟩ 30 rfl (by norm_num) (by norm_num)
    ⟨5000, by norm_num⟩ ⟨3000, by norm_num⟩).1

/-- C10: with costPrice present but the product priced at break-even
(price = costPrice) or created with zero initial stock, the POST /api/products
handler writes no purchase AccountEntry. -/
theorem purchaseAccountEntry_skips_breakeven_and_zero_qty (input : ProductInput) (cp : ℚ)
    (hcp : input.costPrice = some cp)
    (h : input.price = cp ∨ input.stockQuantity = 0) :
    purchaseAccountEntry input = none := by
  unfold purchaseAccountEntry
  rw [hcp]
  simp only []
  rcases h with heq | hz
  · by_cases hq : 0 < input.stockQuantity
    · rw [if_pos hq, heq]
      simp
    · rw [if_neg hq]
  · rw [hz]
    norm_num

/-- Witness for C10: price = costPrice = 20 with stock 5 writes no entry. -/
theorem purchaseAccountEntry_skips_breakeven_and_zero_qty_witness :
    purchaseAccountEntry ⟨20, some 20, 5⟩ = none :=
  purchaseAccountEntry_skips_breakeven_and_zero_qty ⟨20, some 20, 5⟩ 20 rfl (Or.inl rfl)

end IMS
